import Mathlib

/-!
# dalec: target dispatch and container assembly

A shallow embedding of

* `frontend/rpmbundle/build.go`: `loadSpec`, the list-targets handler of
  `handleSubrequest`, and the target switch inside `Build`;
* `frontend/mariner2/handle_container.go`: `specToContainerLLB`,
  `getImagePostInstall` and `addImagePost`,

together with the two Go library routines their output depends on
(`strconv.Quote`, which is what the `%q` verb prints, and `filepath.Join`).

Go strings are modelled as lists of Unicode code points, that is, as valid
UTF-8 text.  Go maps are modelled as association lists; a `range` loop over a
map visits the entries in an order chosen by the runtime, which is made an
explicit parameter (`MapIter`).  Functions of the repository that are declared
outside the two files are parameters, collected in `Deps`.
-/

namespace Dalec

/-- Go strings, as sequences of code points. -/
abbrev Str := List Char

/-! ## `strconv.Quote`, the `%q` verb -/

namespace Strconv

/-- The digit table `lowerhex` of package strconv. -/
def lowerhex : Str := "0123456789abcdef".toList

/-- The digit `lowerhex[n & 0xF]`. -/
def hexDigit (n : Nat) : Char := lowerhex.getD (n % 16) '0'

/-- The loop `for s := top; s >= 0; s -= 4 { lowerhex[r>>s & 0xF] }`, given the
list of shift amounts. -/
def hexDigits (r : Nat) (shifts : List Nat) : Str :=
  shifts.map fun s => hexDigit (r / 2 ^ s)

/-- The function `strconv.IsPrint`.  Code points up to U+00FF are decided by
the explicit comparisons of the Go function; above that Go consults its
generated tables, which are the parameter `tbl`. -/
def isPrint (tbl : Nat → Bool) (r : Char) : Bool :=
  let n := r.toNat
  if n ≤ 0xFF then
    if 0x20 ≤ n ∧ n ≤ 0x7E then true
    else if 0xA1 ≤ n ∧ n ≤ 0xFF then n != 0xAD
    else false
  else tbl n

/-- The function `appendEscapedRune` with `quote = '"'`, `ASCIIonly = false`,
`graphicOnly = false`: the text one code point contributes to a quoted
string. -/
def appendEscapedRune (tbl : Nat → Bool) (r : Char) : Str :=
  if r = '"' ∨ r = '\\' then ['\\', r]
  else if isPrint tbl r then [r]
  else if r = Char.ofNat 7 then "\\a".toList
  else if r = Char.ofNat 8 then "\\b".toList
  else if r = Char.ofNat 12 then "\\f".toList
  else if r = '\n' then "\\n".toList
  else if r = '\r' then "\\r".toList
  else if r = '\t' then "\\t".toList
  else if r = Char.ofNat 11 then "\\v".toList
  else if r.toNat < 0x20 ∨ r.toNat = 0x7F then
    "\\x".toList ++ hexDigits r.toNat [4, 0]
  else if r.toNat < 0x10000 then
    "\\u".toList ++ hexDigits r.toNat [12, 8, 4, 0]
  else
    "\\U".toList ++ hexDigits r.toNat [28, 24, 20, 16, 12, 8, 4, 0]

/-- The function `strconv.Quote`: a double-quoted Go string literal. -/
def quote (tbl : Nat → Bool) (s : Str) : Str :=
  '"' :: (s.map (appendEscapedRune tbl)).flatten ++ ['"']

end Strconv

/-! ## `filepath.Join` (Unix) -/

namespace Filepath

/-- The inner loop of the `..` case of `Clean`, on the reversed buffer:
`for out.w > dotdot && !os.IsPathSeparator(out.index(out.w)) { out.w-- }`,
where `last` is the byte at index `out.w`. -/
def backLoop (dotdot : Nat) : Str → Char → Str
  | [], _ => []
  | c :: rb, last =>
    if (c :: rb).length > dotdot ∧ last ≠ '/' then backLoop dotdot rb c else c :: rb

/-- The backtracking of the `..` case: `out.w--` followed by the inner loop. -/
def backtrack (dotdot : Nat) (buf : Str) : Str :=
  match buf.reverse with
  | [] => []
  | c :: rb => (backLoop dotdot rb c).reverse

/-- One iteration of the main loop of `Clean` that meets the path element
`el` (the text up to the next separator); the state is the output buffer and
the index `dotdot`. -/
def cleanStep (rooted : Bool) (st : Str × Nat) (el : Str) : Str × Nat :=
  let (buf, dotdot) := st
  if el = [] then (buf, dotdot)
  else if el = ['.'] then (buf, dotdot)
  else if el = ['.', '.'] then
    if buf.length > dotdot then (backtrack dotdot buf, dotdot)
    else if !rooted then
      let buf1 := if buf.length > 0 then buf ++ ['/'] else buf
      let buf2 := buf1 ++ ['.', '.']
      (buf2, buf2.length)
    else (buf, dotdot)
  else
    let buf1 :=
      if (rooted ∧ buf.length ≠ 1) ∨ (!rooted ∧ buf.length ≠ 0) then buf ++ ['/'] else buf
    (buf1 ++ el, dotdot)

/-- The function `filepath.Clean` on Unix (no volume name). -/
def clean (path : Str) : Str :=
  match path with
  | [] => ['.']
  | c :: rest =>
    let rooted : Bool := c = '/'
    let start : Str × Nat := if rooted then (['/'], 1) else ([], 0)
    let body : Str := if rooted then rest else path
    let out := (body.splitOn '/').foldl (cleanStep rooted) start
    if out.1.length = 0 then ['.'] else out.1

/-- The function `filepath.Join` on Unix: the elements from the first
non-empty one on, joined by the separator and cleaned; empty when all are
empty. -/
def join : List Str → Str
  | [] => []
  | e :: es => if e ≠ [] then clean (List.intercalate ['/'] (e :: es)) else join es

end Filepath

/-! ## `frontend/rpmbundle/build.go` -/

/-- A Go `error` value, by its message. -/
structure GoError where
  msg : Str
  deriving DecidableEq, Repr

/-- The call `fmt.Errorf("unknown target %q", name)`. -/
def unknownTargetError (tbl : Nat → Bool) (name : Str) : GoError :=
  ⟨"unknown target ".toList ++ Strconv.quote tbl name⟩

/-- The constant `targetBuildroot`. -/
def targetBuildroot : Str := "buildroot".toList

/-- The constant `targetResolve`. -/
def targetResolve : Str := "resolve".toList

/-- The build client as `loadSpec` and `Build` use it: `ReadEntrypoint` (an
effect on the outside world `W`, returning the file contents), the spec loader
`frontend.LoadSpec(bytes.TrimSpace(·), client.BuildArgs)`, and the requested
target name `bc.Target`. -/
structure BuildClient (W S : Type) where
  readEntrypoint : W → Except GoError Str × W
  frontendLoadSpec : Str → Except GoError S
  target : Str

/-- The function `loadSpec`. -/
def loadSpec {W S : Type} (bc : BuildClient W S) (w : W) : Except GoError S × W :=
  match bc.readEntrypoint w with
  | (.error err, w1) => (.error ⟨"could not read spec file: ".toList ++ err.msg⟩, w1)
  | (.ok src, w1) =>
    match bc.frontendLoadSpec src with
    | .error err => (.error ⟨"error loading spec: ".toList ++ err.msg⟩, w1)
    | .ok spec => (.ok spec, w1)

/-- The triple `(gwclient.Reference, *image.Image, error)` a build callback
returns; `none` is Go's `nil`. -/
structure BuildOut (R I : Type) where
  ref : Option R
  img : Option I
  err : Option GoError

/-- A target handler (`handleBuildRoot`, `handleResolve`): it receives the
loaded spec and acts on the outside world. -/
abbrev Handler (W S R I : Type) := S → W → BuildOut R I × W

/-- The callback that `Build` passes to `bc.Build`: load the spec, then switch
on `bc.Target`. -/
def buildCallback {W S R I : Type} (tbl : Nat → Bool) (bc : BuildClient W S)
    (handleBuildRoot handleResolve : Handler W S R I) (w : W) : BuildOut R I × W :=
  match loadSpec bc w with
  | (.error err, w1) => (⟨none, none, some err⟩, w1)
  | (.ok spec, w1) =>
    if bc.target = targetBuildroot ∨ bc.target = [] then handleBuildRoot spec w1
    else if bc.target = targetResolve then handleResolve spec w1
    else (⟨none, none, some (unknownTargetError tbl bc.target)⟩, w1)

/-- An entry `targets.Target` of a target list. -/
structure TargetEntry where
  name : Str
  default : Bool
  description : Str
  deriving DecidableEq, Repr

/-- The `ListTargets` handler inside `handleSubrequest`. -/
def listTargets {W S : Type} (bc : BuildClient W S) (w : W) :
    Except GoError (List TargetEntry) × W :=
  match loadSpec bc w with
  | (.error err, w1) => (.error err, w1)
  | (.ok _, w1) =>
    (.ok [
      { name := targetBuildroot, default := true,
        description := "Outputs an rpm buildroot suitable for passing to rpmbuild".toList },
      { name := targetResolve, default := false,
        description := "Outputs the resolved yaml spec with build args expanded".toList }],
     w1)

/-! ## The spec, as `handle_container.go` reads it -/

/-- The type `dalec.SymlinkTarget`: the link path. -/
structure SymlinkTarget where
  path : Str
  deriving DecidableEq, Repr

/-- The type `dalec.PostInstall`: the map `Symlinks` from a source path to the
link to create for it. -/
structure PostInstall where
  symlinks : List (Str × SymlinkTarget)
  deriving DecidableEq, Repr

/-- The type `dalec.ImageConfig`, of which only the pointer `Post` is read. -/
structure ImageConfig where
  post : Option PostInstall
  deriving DecidableEq, Repr

/-- The type `dalec.Target`, of which only the pointer `Image` is read. -/
structure Target where
  image : Option ImageConfig
  deriving DecidableEq, Repr

/-- The type `dalec.Spec`: the name, the map `Targets` and the pointer
`Image`. -/
structure Spec where
  name : Str
  targets : List (Str × Target)
  image : Option ImageConfig
  deriving DecidableEq, Repr

/-- The order in which `range` yields the entries of a map: some arrangement
of the entries, chosen by the Go runtime. -/
structure MapIter where
  order : {V : Type} → List (Str × V) → List (Str × V)
  perm : ∀ {V : Type} (m : List (Str × V)), (order m).Perm m

/-- The function `getImagePostInstall`. -/
def getImagePostInstall (spec : Spec) (targetKey : Str) : Option PostInstall :=
  match spec.targets.lookup targetKey with
  | some ⟨some ⟨some post⟩⟩ => some post
  | _ =>
    match spec.image with
    | none => none
    | some img => img.post

/-! ## The operation graph (`llb.State`) -/

/-- An `llb.ConstraintsOpt`: a progress group, as `dalec.ProgressGroup` makes
one, or some other option of the caller. -/
inductive ConstraintsOpt where
  | progressGroup (name : Str)
  | other (id : Str)
  deriving DecidableEq, Repr

mutual
/-- An `llb.State`: the empty state, an image (by its reference and constraint
options; the metadata resolver is not represented), a state with a file made in
it, or the output of an exec at one of its mount points (`/` for the root). -/
inductive State where
  | scratch
  | image (ref : Str) (constraints : List ConstraintsOpt)
  | mkfile (base : State) (name : Str) (mode : Nat) (data : Str)
      (constraints : List ConstraintsOpt)
  | output (e : Exec) (target : Str)
/-- An exec op: the state it runs on, its arguments, its mounts in the order
they were added, and its constraint options in the order they were applied. -/
inductive Exec where
  | mk (root : State) (args : List Str) (mounts : Mounts) (constraints : List ConstraintsOpt)
/-- The mounts of an exec: target, source state and mount options. -/
inductive Mounts where
  | nil
  | cons (target : Str) (source : State) (opts : List Str) (rest : Mounts)
end

/-- A mount before it is attached to an exec (`llb.AddMount`). -/
structure MountSpec where
  target : Str
  source : State
  opts : List Str

/-- The mounts of an exec with one more at the end. -/
def Mounts.snoc : Mounts → MountSpec → Mounts
  | .nil, m => .cons m.target m.source m.opts .nil
  | .cons t s o rest, m => .cons t s o (rest.snoc m)

/-- The mounts of a list of mount specs. -/
def Mounts.ofList : List MountSpec → Mounts
  | [] => .nil
  | m :: ms => .cons m.target m.source m.opts (Mounts.ofList ms)

/-- The mount specs of the mounts of an exec. -/
def Mounts.toList : Mounts → List MountSpec
  | .nil => []
  | .cons t s o rest => ⟨t, s, o⟩ :: rest.toList

/-- The type `llb.ExecInfo`, what run options act on. -/
structure ExecInfo where
  args : List Str
  mounts : List MountSpec
  constraints : List ConstraintsOpt

/-- An `llb.RunOption`. -/
abbrev RunOption := ExecInfo → ExecInfo

/-- The option `dalec.WithConstraints(opts...)`: every option is applied, in
order. -/
def withConstraints (opts : List ConstraintsOpt) : RunOption :=
  fun ei => { ei with constraints := ei.constraints ++ opts }

/-- The option `llb.AddMount(target, source, opts...)`. -/
def addMount (target : Str) (source : State) (opts : List Str) : RunOption :=
  fun ei => { ei with mounts := ei.mounts ++ [⟨target, source, opts⟩] }

/-- The option that sets the arguments (`llb.Args`). -/
def setArgs (args : List Str) : RunOption :=
  fun ei => { ei with args := args }

/-- The method `State.Run`: the options are applied in order to an empty
`ExecInfo`, and the exec is made of the result. -/
def State.run (s : State) (ros : List RunOption) : Exec :=
  let ei := ros.foldl (fun ei ro => ro ei) (⟨[], [], []⟩ : ExecInfo)
  .mk s ei.args (Mounts.ofList ei.mounts) ei.constraints

/-- The exec after `ExecState.AddMount(target, source)`: the mount is added
to the exec op. -/
def Exec.addMount : Exec → Str → State → Exec
  | .mk root args mounts cs, target, source => .mk root args (mounts.snoc ⟨target, source, []⟩) cs

/-- The state an `ExecState` stands for: the root output of its exec. -/
def Exec.rootState (e : Exec) : State := .output e ['/']

/-- The state an exec runs on. -/
def Exec.root : Exec → State
  | .mk root _ _ _ => root

/-- The arguments of an exec. -/
def Exec.args : Exec → List Str
  | .mk _ args _ _ => args

/-- The mounts of an exec. -/
def Exec.mounts : Exec → Mounts
  | .mk _ _ mounts _ => mounts

/-- The constraint options of an exec. -/
def Exec.constraints : Exec → List ConstraintsOpt
  | .mk _ _ _ cs => cs

/-- The progress group a list of constraint options leaves set: the last one
applied. -/
def progressGroupOf (cs : List ConstraintsOpt) : Option Str :=
  cs.foldl (fun acc o => match o with
    | .progressGroup n => some n
    | .other _ => acc) none

mutual
/-- The exec ops of the graph of a state. -/
def State.execs : State → List Exec
  | .scratch => []
  | .image _ _ => []
  | .mkfile base _ _ _ _ => base.execs
  | .output e _ => e.execs
/-- The exec ops of the graph of an exec: itself, and those of its inputs. -/
def Exec.execs : Exec → List Exec
  | .mk root args mounts cs => .mk root args mounts cs :: (root.execs ++ mounts.execs)
/-- The exec ops of the graphs of the sources of mounts. -/
def Mounts.execs : Mounts → List Exec
  | .nil => []
  | .cons _ source _ rest => source.execs ++ rest.execs
end

/-! ## `frontend/mariner2/handle_container.go` -/

/-- Functions of the repository that `handle_container.go` calls and that are
declared elsewhere: `shArgs` (the arguments that run a shell command), the
two tdnf cache mounts, and `frontend.GetBaseOutputImage`. -/
structure Deps where
  shArgs : Str → List Str
  defaultTdnfCacheMount : MountSpec
  tdnfCacheMountWithPrefix : Str → MountSpec
  getBaseOutputImage : Spec → Str → Str → Str

/-- The constant `marinerDistrolessRef`. -/
def marinerDistrolessRef : Str := "mcr.microsoft.com/cbl-mariner/distroless/base:2.0".toList

/-- The constant `workPath` of `specToContainerLLB`. -/
def workPath : Str := "/tmp/rootfs".toList

/-- The variable `mfstDir`. -/
def mfstDir : Str := Filepath.join [workPath, "var/lib/rpmmanifest".toList]

/-- The variable `mfst1`. -/
def mfst1 : Str := Filepath.join [mfstDir, "container-manifest-1".toList]

/-- The variable `mfst2`. -/
def mfst2 : Str := Filepath.join [mfstDir, "container-manifest-2".toList]

/-- The variable `rpmdbDir`. -/
def rpmdbDir : Str := Filepath.join [workPath, "var/lib/rpm".toList]

/-- The variable `chrootedPaths`. -/
def chrootedPaths : List Str := [
  Filepath.join [workPath, "/usr/local/bin".toList],
  Filepath.join [workPath, "/usr/local/sbin".toList],
  Filepath.join [workPath, "/usr/bin".toList],
  Filepath.join [workPath, "/usr/sbin".toList],
  Filepath.join [workPath, "/bin".toList],
  Filepath.join [workPath, "/sbin".toList]]

/-- The variable `chrootedPathEnv`: `strings.Join(chrootedPaths, ":")`. -/
def chrootedPathEnv : Str := List.intercalate [':'] chrootedPaths

/-- The query format of the manifest-2 line of the install script, as it
stands between the double quotes (the backslashes are in the text: the Go
literal is a raw string). -/
def mfst2Format : Str :=
  ("%\x7bNAME\x7d\\t%\x7bVERSION\x7d-%\x7bRELEASE\x7d\\t%\x7bINSTALLTIME\x7d\\t" ++
   "%\x7bBUILDTIME\x7d\\t%\x7bVENDOR\x7d\\t(none)\\t%\x7bSIZE\x7d\\t%\x7bARCH\x7d\\t" ++
   "%\x7bEPOCHNUM\x7d\\t%\x7bSOURCERPM\x7d\\n").toList

/-- The variable `installCmd`: the raw string pieces, one script line a
literal, and the variables spliced between them. -/
def installCmd : Str :=
  ("\n" ++
   "#!/usr/bin/env sh\n" ++
   "\n" ++
   "check_non_empty() \x7b\n" ++
   "\tls $\x7b1\x7d > /dev/null 2>&1\n" ++
   "\x7d\n" ++
   "\n" ++
   "arch_dir=\"/tmp/rpms/$(uname -m)\"\n" ++
   "noarch_dir=\"/tmp/rpms/noarch\"\n" ++
   "\n" ++
   "rpms=\"\"\n" ++
   "\n" ++
   "if check_non_empty \"$\x7bnoarch_dir\x7d/*.rpm\"; then\n" ++
   "\trpms=\"$\x7bnoarch_dir\x7d/*.rpm\"\n" ++
   "fi\n" ++
   "\n" ++
   "if check_non_empty \"$\x7barch_dir\x7d/*.rpm\"; then\n" ++
   "\trpms=\"$\x7brpms\x7d $\x7barch_dir\x7d/*.rpm\"\n" ++
   "fi\n" ++
   "\n" ++
   "if [ -n \"$\x7brpms\x7d\" ]; then\n" ++
   "\ttdnf -v install --releasever=2.0 -y --nogpgcheck --installroot \"").toList ++
  workPath ++
  ("\" --setopt=reposdir=/etc/yum.repos.d $\x7brpms\x7d || exit\n" ++
   "fi\n" ++
   "\n" ++
   "# If the rpm command is in the rootfs then we don't need to do anything\n" ++
   "# If not then this is a distroless image and we need to generate manifests of the installed rpms and cleanup the rpmdb.\n" ++
   "\n" ++
   "PATH=\"").toList ++
  chrootedPathEnv ++
  ("\" command -v rpm && exit 0\n" ++
   "\n" ++
   "set -e\n" ++
   "mkdir -p ").toList ++
  mfstDir ++
  "\nrpm --dbpath=".toList ++ rpmdbDir ++ " -qa > ".toList ++ mfst1 ++
  "\nrpm --dbpath=".toList ++ rpmdbDir ++ " -qa --qf \"".toList ++ mfst2Format ++
  "\" > ".toList ++ mfst2 ++
  "\nrm -rf ".toList ++ rpmdbDir ++ "\n".toList

/-- The text that `addImagePost` writes to its buffer, for the entries of
`post.Symlinks` in the order `range` yields them. -/
def addImagePostScript (tbl : Nat → Bool) (it : MapIter) (post : PostInstall)
    (rootfsPath : Str) : Str :=
  "set -ex\n".toList ++
  ("cd ".toList ++ Strconv.quote tbl rootfsPath ++ "\n".toList) ++
  ((it.order post.symlinks).map fun e =>
    "ln -s ".toList ++ Strconv.quote tbl e.1 ++ " ".toList ++
      Strconv.quote tbl (Filepath.join [rootfsPath, e.2.path]) ++ "\n".toList).flatten

/-- The function `addImagePost`: a run option that does nothing for a nil
declaration or an empty map, and otherwise sets the arguments to the shell
script and the progress group. -/
def addImagePost (deps : Deps) (tbl : Nat → Bool) (it : MapIter) (post : Option PostInstall)
    (rootfsPath : Str) : RunOption :=
  fun ei =>
    match post with
    | none => ei
    | some p =>
      if p.symlinks.length = 0 then ei
      else
        withConstraints [.progressGroup "Add post-install symlinks".toList]
          (setArgs (deps.shArgs (addImagePostScript tbl it p rootfsPath)) ei)

/-- The exec `worker` of `specToContainerLLB` once the base image is mounted
on it: the install step. -/
def installStep (deps : Deps) (spec : Spec) (target : Str) (builderImg rpmDir : State)
    (opts : List ConstraintsOpt) : Exec :=
  let opts := opts ++ [.progressGroup "Install RPMs".toList]
  let installer := State.mkfile .scratch "install.sh".toList 0o755 installCmd opts
  let baseImg := State.image (deps.getBaseOutputImage spec target marinerDistrolessRef) opts
  let worker := builderImg.run [
    setArgs (deps.shArgs "/tmp/install.sh".toList),
    fun ei => { ei with mounts := ei.mounts ++ [deps.defaultTdnfCacheMount] },
    addMount "/tmp/rpms".toList rpmDir ["SourcePath(/RPMS)".toList],
    addMount "/tmp/install.sh".toList installer ["SourcePath(install.sh)".toList],
    fun ei => { ei with mounts := ei.mounts ++ [deps.tdnfCacheMountWithPrefix workPath] },
    withConstraints opts]
  worker.addMount workPath baseImg

/-- The function `specToContainerLLB`. -/
def specToContainerLLB (deps : Deps) (tbl : Nat → Bool) (it : MapIter) (spec : Spec)
    (target : Str) (builderImg rpmDir : State) (opts : List ConstraintsOpt) :
    Except GoError State :=
  let worker := installStep deps spec target builderImg rpmDir opts
  let opts := opts ++ [.progressGroup "Install RPMs".toList]
  let rootfs := State.output worker workPath
  match getImagePostInstall spec target with
  | some post =>
    if post.symlinks.length > 0 then
      .ok (State.output
        ((worker.rootState.run [withConstraints opts,
            addImagePost deps tbl it (some post) workPath]).addMount workPath rootfs)
        workPath)
    else .ok rootfs
  | none => .ok rootfs

/-- An exec is the symlink step when its progress group is the one
`addImagePost` sets. -/
def Exec.isSymlinkStep (e : Exec) : Bool :=
  progressGroupOf e.constraints = some "Add post-install symlinks".toList

/-! ## The install script as a sequence of statements

The part of `installCmd` from the package install on, statement by statement,
with the reading a POSIX shell gives it: `c || exit` leaves the script when `c`
fails, `c && exit 0` leaves it with status 0 when `c` succeeds, and after
`set -e` a failing command ends the script. -/

/-- The commands of the script whose success depends on the build
environment. -/
inductive Step where
  | install
  | probe
  | mkManifestDir
  | writeManifest1
  | writeManifest2
  | removeRpmdb
  deriving DecidableEq, Repr

/-- A statement of the script. -/
inductive Sh where
  | cmd (step : Step) (text : Str)
  | orExit (step : Step) (text : Str)
  | andExit0 (step : Step) (text : Str)
  | setE
  | ifRpms (body : Sh)
  | text (line : Str)
  deriving DecidableEq, Repr

/-- The text of a statement. -/
def Sh.render : Sh → Str
  | .cmd _ t => t ++ "\n".toList
  | .orExit _ t => t ++ " || exit\n".toList
  | .andExit0 _ t => t ++ " && exit 0\n".toList
  | .setE => "set -e\n".toList
  | .ifRpms body => "if [ -n \"$\x7brpms\x7d\" ]; then\n\t".toList ++ body.render ++ "fi\n".toList
  | .text line => line ++ "\n".toList

/-- The text of `installCmd` before the package install: the function
`check_non_empty` and the collection of the install arguments in `rpms`. -/
def installPreamble : Str :=
  ("\n" ++
   "#!/usr/bin/env sh\n" ++
   "\n" ++
   "check_non_empty() \x7b\n" ++
   "\tls $\x7b1\x7d > /dev/null 2>&1\n" ++
   "\x7d\n" ++
   "\n" ++
   "arch_dir=\"/tmp/rpms/$(uname -m)\"\n" ++
   "noarch_dir=\"/tmp/rpms/noarch\"\n" ++
   "\n" ++
   "rpms=\"\"\n" ++
   "\n" ++
   "if check_non_empty \"$\x7bnoarch_dir\x7d/*.rpm\"; then\n" ++
   "\trpms=\"$\x7bnoarch_dir\x7d/*.rpm\"\n" ++
   "fi\n" ++
   "\n" ++
   "if check_non_empty \"$\x7barch_dir\x7d/*.rpm\"; then\n" ++
   "\trpms=\"$\x7brpms\x7d $\x7barch_dir\x7d/*.rpm\"\n" ++
   "fi\n" ++
   "\n").toList

/-- The statements of `installCmd` after the preamble, in the order of the
text. -/
def installProgram : List Sh := [
  .ifRpms (.orExit .install
    ("tdnf -v install --releasever=2.0 -y --nogpgcheck --installroot \"".toList ++ workPath ++
      "\" --setopt=reposdir=/etc/yum.repos.d $\x7brpms\x7d".toList)),
  .text [],
  .text "# If the rpm command is in the rootfs then we don't need to do anything".toList,
  .text "# If not then this is a distroless image and we need to generate manifests of the installed rpms and cleanup the rpmdb.".toList,
  .text [],
  .andExit0 .probe ("PATH=\"".toList ++ chrootedPathEnv ++ "\" command -v rpm".toList),
  .text [],
  .setE,
  .cmd .mkManifestDir ("mkdir -p ".toList ++ mfstDir),
  .cmd .writeManifest1 ("rpm --dbpath=".toList ++ rpmdbDir ++ " -qa > ".toList ++ mfst1),
  .cmd .writeManifest2 ("rpm --dbpath=".toList ++ rpmdbDir ++ " -qa --qf \"".toList ++
    mfst2Format ++ "\" > ".toList ++ mfst2),
  .cmd .removeRpmdb ("rm -rf ".toList ++ rpmdbDir)]

/-- What a run of the script depends on: whether install arguments were
collected (`rpms` is not empty), and which commands succeed. -/
structure ShEnv where
  rpmsNonEmpty : Bool
  succeeds : Step → Bool

/-- The state of a run: whether `set -e` is in force, the commands run so far
with their success, and the exit status once the script has ended (`true` is
status 0). -/
structure ShState where
  strict : Bool
  trace : List (Step × Bool)
  exited : Option Bool
  deriving DecidableEq, Repr

/-- One statement, from a state in which the script is still running. -/
def Sh.exec (env : ShEnv) (st : ShState) : Sh → ShState
  | .cmd step _ =>
    let ok := env.succeeds step
    { st with trace := st.trace ++ [(step, ok)],
              exited := if !ok && st.strict then some false else none }
  | .orExit step _ =>
    let ok := env.succeeds step
    { st with trace := st.trace ++ [(step, ok)], exited := if ok then none else some false }
  | .andExit0 step _ =>
    let ok := env.succeeds step
    { st with trace := st.trace ++ [(step, ok)], exited := if ok then some true else none }
  | .setE => { st with strict := true }
  | .ifRpms body => if env.rpmsNonEmpty then body.exec env st else st
  | .text _ => st

/-- A run of a list of statements: each in turn, until the script has ended. -/
def runSh (env : ShEnv) (prog : List Sh) : ShState :=
  prog.foldl (fun st s => if st.exited.isSome then st else s.exec env st) ⟨false, [], none⟩

/-- The script ends with status 0: it left through `exit 0`, or ran to its end
with the last command run (if any) successful. -/
def ShState.success (st : ShState) : Bool :=
  match st.exited with
  | some b => b
  | none => (st.trace.getLast?.map Prod.snd).getD true

/-- The command ran in the run. -/
def ShState.ran (st : ShState) (step : Step) : Bool :=
  st.trace.any fun e => e.1 = step

/-- The command ran and succeeded in the run. -/
def ShState.done (st : ShState) (step : Step) : Bool :=
  st.trace.contains (step, true)

/-! ## The manifest-2 line -/

/-- The text `rpm` prints for the literal parts of a query format: `\t` is a
tab and `\n` a newline. -/
def rpmUnescape : Str → Str
  | '\\' :: 't' :: rest => '\t' :: rpmUnescape rest
  | '\\' :: 'n' :: rest => '\n' :: rpmUnescape rest
  | c :: rest => c :: rpmUnescape rest
  | [] => []

/-- The fields of a line of manifest-2: the pieces of the query format between
tabs, without the newline that ends the line. -/
def mfst2Fields : List Str :=
  ((rpmUnescape mfst2Format).dropLast).splitOn '\t'

/-! ## The shell's reading of a double-quoted word -/

/-- What a POSIX shell makes of the text after an opening double quote: the
literal value of the quoted part and the text after the closing quote, or an
expansion (`$` or a backquote is met unescaped), or no closing quote. -/
inductive DqRead where
  | literal (value rest : Str)
  | expansion
  | unterminated
  deriving DecidableEq, Repr

/-- Put a character in front of a literal reading. -/
def DqRead.push (c : Str) : DqRead → DqRead
  | .literal v rest => .literal (c ++ v) rest
  | r => r

/-- Reading inside double quotes: a backslash escapes `$`, the backquote, `"`
and itself, joins lines before a newline, and is a character of its own before
anything else; `$` and the backquote start an expansion. -/
def readDq : Str → DqRead
  | [] => .unterminated
  | '"' :: rest => .literal [] rest
  | '$' :: _ => .expansion
  | '\\' :: c :: rest =>
    if c = '$' ∨ c = Char.ofNat 96 ∨ c = '"' ∨ c = '\\' then (readDq rest).push [c]
    else if c = '\n' then readDq rest
    else (readDq rest).push ['\\', c]
  | c :: rest => if c = Char.ofNat 96 then .expansion else (readDq rest).push [c]

/-- The shell's reading of a word that starts with a double quote. -/
def readWord : Str → DqRead
  | '"' :: rest => readDq rest
  | _ => .unterminated

/-! ## Concrete inputs -/

/-- The iteration that yields the entries in the order they are stored. -/
def MapIter.stored : MapIter := ⟨fun m => m, fun m => List.Perm.refl m⟩

/-- The iteration that yields the entries in the opposite order. -/
def MapIter.reversed : MapIter := ⟨fun m => m.reverse, fun m => List.reverse_perm m⟩

/-- A print table that holds no code point above U+00FF printable. -/
def noTable : Nat → Bool := fun _ => false

/-- A build client whose entrypoint reads and loads to `spec`, asked for
`target`. -/
def clientFor {S : Type} (spec : S) (target : Str) : BuildClient Unit S :=
  ⟨fun w => (.ok [], w), fun _ => .ok spec, target⟩

/-- A handler that returns nothing and no error. -/
def idleHandler {S : Type} : Handler Unit S Unit Unit := fun _ w => (⟨none, none, none⟩, w)

/-- A spec whose target `mariner2` customizes its image without a post-install
block, under a spec-level block that links `/usr/bin/sh`. -/
def demoSpec : Spec :=
  { name := "demo".toList,
    targets := [("mariner2".toList, ⟨some ⟨none⟩⟩)],
    image := some ⟨some ⟨[("/usr/bin/sh".toList, ⟨"/bin/sh".toList⟩)]⟩⟩ }

/-- The resolution that the precedence rule read literally would give: the
post-install block of the image customization of the target when the target
has one, else that of the spec-level image block. -/
def postInstallByPresence (spec : Spec) (targetKey : Str) : Option PostInstall :=
  match spec.targets.lookup targetKey with
  | some ⟨some img⟩ => img.post
  | _ =>
    match spec.image with
    | none => none
    | some img => img.post

/-- Stand-ins for the functions declared outside the file: `sh -c` arguments,
two cache mounts on scratch, and the fallback reference as the base image. -/
def demoDeps : Deps :=
  { shArgs := fun cmd => ["sh".toList, "-c".toList, cmd],
    defaultTdnfCacheMount := ⟨"/var/cache/tdnf".toList, .scratch, ["cache".toList]⟩,
    tdnfCacheMountWithPrefix := fun p =>
      ⟨p ++ "/var/cache/tdnf".toList, .scratch, ["cache".toList]⟩,
    getBaseOutputImage := fun _ _ ref => ref }

/-- A worker image. -/
def demoWorker : State := .image "worker".toList []

/-- A post-install declaration of two links. -/
def twoLinks : PostInstall :=
  ⟨[("/usr/bin/a".toList, ⟨"/bin/a".toList⟩), ("/usr/bin/b".toList, ⟨"/bin/b".toList⟩)]⟩

/-- A spec without targets whose spec-level image block declares two links. -/
def twoLinkSpec : Spec :=
  { name := "two".toList, targets := [], image := some ⟨some twoLinks⟩ }

/-- A one-link declaration whose source has the text of a command
substitution. -/
def substLink : PostInstall := ⟨[("$(id)".toList, ⟨"/l".toList⟩)]⟩

/-- The run environment with the given answers: whether install arguments were
collected, then the success of the install, the probe, the directory creation,
the two manifest writes and the database removal. -/
def envOf (rpms install probe mkManifestDir write1 write2 remove : Bool) : ShEnv :=
  { rpmsNonEmpty := rpms,
    succeeds := fun
      | .install => install
      | .probe => probe
      | .mkManifestDir => mkManifestDir
      | .writeManifest1 => write1
      | .writeManifest2 => write2
      | .removeRpmdb => remove }

end Dalec

/-! # Theorems -/

namespace Dalec

/-! ## The target switch -/

/-- C1: once the spec has loaded, the switch in `Build` returns what
`handleBuildRoot` returns for the names `buildroot` and the empty name, what
`handleResolve` returns for `resolve`, and for a name that is none of the three
the triple (nil, nil, unknown-target error) in the world the load left,
whatever the handlers are; the latter happens exactly for the names outside
the three. -/
theorem build_dispatch_routes {W S R I : Type} (tbl : Nat → Bool) (bc : BuildClient W S)
    (w w1 : W) (spec : S) (hload : loadSpec bc w = (.ok spec, w1)) :
    (∀ hBR hR : Handler W S R I, bc.target = targetBuildroot ∨ bc.target = [] →
        buildCallback tbl bc hBR hR w = hBR spec w1) ∧
    (∀ hBR hR : Handler W S R I, bc.target = targetResolve →
        buildCallback tbl bc hBR hR w = hR spec w1) ∧
    ((∀ hBR hR : Handler W S R I,
        buildCallback tbl bc hBR hR w =
          (⟨none, none, some (unknownTargetError tbl bc.target)⟩, w1)) ↔
      (bc.target ≠ [] ∧ bc.target ≠ targetBuildroot ∧ bc.target ≠ targetResolve)) := by
  refine ⟨?_, ?_, ?_, ?_⟩
  · intro hBR hR h
    simp only [buildCallback, hload, if_pos h]
  · intro hBR hR h
    have h1 : ¬ (bc.target = targetBuildroot ∨ bc.target = []) := by
      rw [h]; decide
    simp only [buildCallback, hload, if_neg h1, if_pos h]
  · intro h
    have key := h (fun _ x => (⟨none, none, none⟩, x)) (fun _ x => (⟨none, none, none⟩, x))
    simp only [buildCallback, hload] at key
    refine ⟨?_, ?_, ?_⟩
    · intro h0
      rw [if_pos (Or.inr h0)] at key
      simp at key
    · intro h0
      rw [if_pos (Or.inl h0)] at key
      simp at key
    · intro h0
      by_cases h1 : bc.target = targetBuildroot ∨ bc.target = []
      · rw [if_pos h1] at key
        simp at key
      · rw [if_neg h1, if_pos h0] at key
        simp at key
  · rintro ⟨h0, h1, h2⟩ hBR hR
    have h3 : ¬ (bc.target = targetBuildroot ∨ bc.target = []) := by
      rintro (h | h)
      · exact h1 h
      · exact h0 h
    simp only [buildCallback, hload, if_neg h3, if_neg h2]

/-- The name `garbage` is answered with the unknown-target error, quoted name
and all, and no handler result. -/
theorem build_dispatch_routes_witness :
    loadSpec (clientFor () "garbage".toList) () = (.ok (), ()) ∧
    buildCallback noTable (clientFor () "garbage".toList) idleHandler idleHandler () =
      (⟨none, none, some ⟨"unknown target \"garbage\"".toList⟩⟩, ()) :=
  ⟨rfl,
   ((build_dispatch_routes (R := Unit) (I := Unit) noTable (clientFor () "garbage".toList) () () ()
      rfl).2.2.mpr ⟨by decide, by decide, by decide⟩ idleHandler idleHandler).trans
     (by rfl)⟩

/-! ## The unknown-target message -/

theorem appendEscapedRune_plain (tbl : Nat → Bool) (c : Char)
    (h : Strconv.isPrint tbl c = true ∧ c ≠ '"' ∧ c ≠ '\\') :
    Strconv.appendEscapedRune tbl c = [c] := by
  obtain ⟨hp, hq, hb⟩ := h
  have h1 : ¬ (c = '"' ∨ c = '\\') := by
    rintro (h | h)
    · exact hq h
    · exact hb h
  simp only [Strconv.appendEscapedRune, if_neg h1, hp, if_true]

theorem flatten_escaped_plain (tbl : Nat → Bool) (s : Str)
    (h : ∀ c ∈ s, Strconv.isPrint tbl c = true ∧ c ≠ '"' ∧ c ≠ '\\') :
    (s.map (Strconv.appendEscapedRune tbl)).flatten = s := by
  induction s with
  | nil => rfl
  | cons c cs ih =>
    have hc := appendEscapedRune_plain tbl c (h c (List.mem_cons_self c cs))
    have hcs := ih fun d hd => h d (List.mem_cons_of_mem c hd)
    simp only [List.map_cons, List.flatten_cons, hc, hcs, List.singleton_append]

theorem quote_plain (tbl : Nat → Bool) (s : Str)
    (h : ∀ c ∈ s, Strconv.isPrint tbl c = true ∧ c ≠ '"' ∧ c ≠ '\\') :
    Strconv.quote tbl s = '"' :: s ++ ['"'] := by
  simp only [Strconv.quote, flatten_escaped_plain tbl s h]

/-- C2, as amended: for a name outside the recognized three, the error of the
switch has the message `unknown target ` followed by the name as `%q` prints
it, so it begins with `unknown target`; and it contains the name itself when
every character of the name is printable and is neither a double quote nor a
backslash. -/
theorem unknown_target_message {W S R I : Type} (tbl : Nat → Bool) (bc : BuildClient W S)
    (hBR hR : Handler W S R I) (w w1 : W) (spec : S)
    (hload : loadSpec bc w = (.ok spec, w1))
    (hname : bc.target ≠ [] ∧ bc.target ≠ targetBuildroot ∧ bc.target ≠ targetResolve) :
    ∃ e : GoError, (buildCallback tbl bc hBR hR w).1.err = some e ∧
      e.msg = "unknown target ".toList ++ Strconv.quote tbl bc.target ∧
      "unknown target".toList <+: e.msg ∧
      ((∀ c ∈ bc.target, Strconv.isPrint tbl c = true ∧ c ≠ '"' ∧ c ≠ '\\') →
        bc.target <:+: e.msg) := by
  obtain ⟨h0, h1, h2⟩ := hname
  have h3 : ¬ (bc.target = targetBuildroot ∨ bc.target = []) := by
    rintro (h | h)
    · exact h1 h
    · exact h0 h
  refine ⟨unknownTargetError tbl bc.target, ?_, rfl, ?_, ?_⟩
  · simp only [buildCallback, hload, if_neg h3, if_neg h2]
  · exact ⟨' ' :: Strconv.quote tbl bc.target, rfl⟩
  · intro hplain
    refine ⟨"unknown target \"".toList, ['"'], ?_⟩
    simp only [unknownTargetError, quote_plain tbl bc.target hplain]
    simp

/-- The message for the name `garbage` contains `garbage`. -/
theorem unknown_target_message_witness :
    ∃ e : GoError,
      (buildCallback noTable (clientFor () "garbage".toList) idleHandler idleHandler ()).1.err
        = some e ∧
      e.msg = "unknown target ".toList ++ Strconv.quote noTable "garbage".toList ∧
      "unknown target".toList <+: e.msg ∧
      ((∀ c ∈ "garbage".toList, Strconv.isPrint noTable c = true ∧ c ≠ '"' ∧ c ≠ '\\') →
        "garbage".toList <:+: e.msg) :=
  unknown_target_message noTable (clientFor () "garbage".toList) idleHandler idleHandler () () ()
    rfl ⟨by decide, by decide, by decide⟩

/-- The name `a"b` is not recognized, and the message of its error,
`unknown target "a\"b"`, does not contain it: `%q` escapes the quote. -/
theorem unknown_target_message_counterexample :
    ("a\"b".toList ≠ [] ∧ "a\"b".toList ≠ targetBuildroot ∧ "a\"b".toList ≠ targetResolve) ∧
    (buildCallback noTable (clientFor () "a\"b".toList) idleHandler idleHandler ()).1.err
      = some ⟨"unknown target \"a\\\"b\"".toList⟩ ∧
    ¬ ("a\"b".toList <:+: "unknown target \"a\\\"b\"".toList) := by
  refine ⟨by decide, by rfl, by decide⟩

/-! ## The target list -/

/-- C3, as amended: once the spec has loaded, the list-targets handler returns
exactly two entries, `buildroot` (default) and `resolve` (not default), in that
order and with their descriptions, whatever the spec holds; `buildroot` is the
one entry flagged as the default. -/
theorem list_targets_static {W S : Type} (bc : BuildClient W S) (w w1 : W) (spec : S)
    (hload : loadSpec bc w = (.ok spec, w1)) :
    ∃ l : List TargetEntry, listTargets bc w = (.ok l, w1) ∧
      l = [⟨"buildroot".toList, true,
              "Outputs an rpm buildroot suitable for passing to rpmbuild".toList⟩,
           ⟨"resolve".toList, false,
              "Outputs the resolved yaml spec with build args expanded".toList⟩] ∧
      (l.filter fun e => e.default).map (fun e => e.name) = ["buildroot".toList] := by
  refine ⟨_, ?_, rfl, by decide⟩
  simp only [listTargets, hload]
  rfl

/-- The list for a client whose spec loads. -/
theorem list_targets_static_witness :
    loadSpec (clientFor demoSpec []) () = (.ok demoSpec, ()) ∧
    ∃ l : List TargetEntry, listTargets (clientFor demoSpec []) () = (.ok l, ()) ∧
      l = [⟨"buildroot".toList, true,
              "Outputs an rpm buildroot suitable for passing to rpmbuild".toList⟩,
           ⟨"resolve".toList, false,
              "Outputs the resolved yaml spec with build args expanded".toList⟩] ∧
      (l.filter fun e => e.default).map (fun e => e.name) = ["buildroot".toList] :=
  ⟨rfl, list_targets_static (clientFor demoSpec []) () () demoSpec rfl⟩

/-- A spec that defines the target `mariner2`, with an image customization,
loads, and the list returned for it has no entry of that name. -/
theorem list_targets_counterexample :
    demoSpec.targets.lookup "mariner2".toList = some ⟨some ⟨none⟩⟩ ∧
    ∃ l : List TargetEntry, listTargets (clientFor demoSpec []) () = (.ok l, ()) ∧
      "mariner2".toList ∉ l.map (fun e => e.name) := by
  refine ⟨by decide, _, rfl, by decide⟩

/-! ## The post-install block of a target -/

/-- C4, as amended: the post-install block of the target's image customization
is the result when it is present; when the target has no entry, no image
customization, or an image customization without a post-install block, the
result is the post-install block of the spec-level image block, nil when the
spec has no such block.  So with a spec-level block `a` and a block `b` for the
target `t`, resolving `t` gives `b` and resolving a target without an entry
gives `a`. -/
theorem image_post_install_precedence (spec : Spec) (targetKey : Str) :
    (∀ post : PostInstall, spec.targets.lookup targetKey = some ⟨some ⟨some post⟩⟩ →
        getImagePostInstall spec targetKey = some post) ∧
    ((∀ post : PostInstall, spec.targets.lookup targetKey ≠ some ⟨some ⟨some post⟩⟩) →
        getImagePostInstall spec targetKey = spec.image.bind fun img => img.post) ∧
    (spec.image = none → (∀ post : PostInstall,
        spec.targets.lookup targetKey ≠ some ⟨some ⟨some post⟩⟩) →
        getImagePostInstall spec targetKey = none) ∧
    (∀ (a b : PostInstall) (other : Str), spec.image = some ⟨some a⟩ →
        spec.targets.lookup targetKey = some ⟨some ⟨some b⟩⟩ →
        spec.targets.lookup other = none →
        getImagePostInstall spec targetKey = some b ∧
        getImagePostInstall spec other = some a) := by
  have hfall : ∀ key : Str,
      (∀ post : PostInstall, spec.targets.lookup key ≠ some ⟨some ⟨some post⟩⟩) →
      getImagePostInstall spec key = spec.image.bind fun img => img.post := by
    intro key h
    unfold getImagePostInstall
    split
    · rename_i post heq
      exact absurd heq (h post)
    · cases spec.image <;> rfl
  refine ⟨?_, hfall targetKey, ?_, ?_⟩
  · intro post h
    simp only [getImagePostInstall, h]
  · intro himg h
    rw [hfall targetKey h, himg]
    rfl
  · intro a b other himg ht ho
    refine ⟨by simp only [getImagePostInstall, ht], ?_⟩
    rw [hfall other (by intro post; rw [ho]; exact Option.noConfusion), himg]
    rfl

/-- The target `mariner2` of the demo spec has an image customization, whose
post-install block is absent, and resolves to the spec-level block, not to
the absent one. -/
theorem image_post_install_counterexample :
    demoSpec.targets.lookup "mariner2".toList = some ⟨some ⟨none⟩⟩ ∧
    postInstallByPresence demoSpec "mariner2".toList = none ∧
    getImagePostInstall demoSpec "mariner2".toList =
      some ⟨[("/usr/bin/sh".toList, ⟨"/bin/sh".toList⟩)]⟩ := by
  refine ⟨by decide, by decide, by decide⟩

/-! ## The symlink script -/

theorem hexDigit_ne_newline (n : Nat) : Strconv.hexDigit n ≠ '\n' := by
  have h : ∀ k, k < 16 → Strconv.lowerhex.getD k '0' ≠ '\n' := by decide
  exact h (n % 16) (Nat.mod_lt n (by decide))

theorem newline_not_mem_hexDigits (r : Nat) (shifts : List Nat) :
    '\n' ∉ Strconv.hexDigits r shifts := by
  intro h
  obtain ⟨s, _, hs⟩ := List.mem_map.mp h
  exact hexDigit_ne_newline _ hs

theorem isPrint_newline (tbl : Nat → Bool) : Strconv.isPrint tbl '\n' = false := rfl

theorem newline_not_mem_escaped (tbl : Nat → Bool) (c : Char) :
    '\n' ∉ Strconv.appendEscapedRune tbl c := by
  have hx : ∀ (pre : Str) (r : Nat) (shifts : List Nat), '\n' ∉ pre →
      '\n' ∉ pre ++ Strconv.hexDigits r shifts := by
    intro pre r shifts hpre h
    rcases List.mem_append.mp h with h | h
    · exact hpre h
    · exact newline_not_mem_hexDigits _ _ h
  unfold Strconv.appendEscapedRune
  by_cases h1 : c = '"' ∨ c = '\\'
  · rw [if_pos h1]
    rcases h1 with h | h <;> subst h <;> decide
  rw [if_neg h1]
  by_cases h2 : Strconv.isPrint tbl c = true
  · rw [if_pos h2]
    intro hm
    rw [List.mem_singleton] at hm
    rw [← hm, isPrint_newline] at h2
    exact Bool.noConfusion h2
  rw [if_neg h2]
  by_cases h3 : c = Char.ofNat 7
  · rw [if_pos h3]; decide
  rw [if_neg h3]
  by_cases h4 : c = Char.ofNat 8
  · rw [if_pos h4]; decide
  rw [if_neg h4]
  by_cases h5 : c = Char.ofNat 12
  · rw [if_pos h5]; decide
  rw [if_neg h5]
  by_cases h6 : c = '\n'
  · rw [if_pos h6]; decide
  rw [if_neg h6]
  by_cases h7 : c = '\r'
  · rw [if_pos h7]; decide
  rw [if_neg h7]
  by_cases h8 : c = '\t'
  · rw [if_pos h8]; decide
  rw [if_neg h8]
  by_cases h9 : c = Char.ofNat 11
  · rw [if_pos h9]; decide
  rw [if_neg h9]
  by_cases h10 : c.toNat < 0x20 ∨ c.toNat = 0x7F
  · rw [if_pos h10]; exact hx _ _ _ (by decide)
  rw [if_neg h10]
  by_cases h11 : c.toNat < 0x10000
  · rw [if_pos h11]; exact hx _ _ _ (by decide)
  · rw [if_neg h11]; exact hx _ _ _ (by decide)

theorem newline_not_mem_quote (tbl : Nat → Bool) (s : Str) : '\n' ∉ Strconv.quote tbl s := by
  intro h
  simp only [Strconv.quote, List.cons_append, List.mem_cons, List.mem_append, List.mem_flatten,
    List.mem_map, List.mem_singleton] at h
  rcases h with h | ⟨l, ⟨c, _, rfl⟩, hl⟩ | h
  · revert h; decide
  · exact newline_not_mem_escaped tbl c hl
  · revert h; decide

theorem newline_not_mem_append {a b : Str} (ha : '\n' ∉ a) (hb : '\n' ∉ b) : '\n' ∉ a ++ b := by
  intro h
  rcases List.mem_append.mp h with h | h
  · exact ha h
  · exact hb h

theorem flatten_line_map {α : Type} (f : α → Str) (l : List α) :
    (l.map fun e => f e ++ "\n".toList).flatten =
      ((l.map f).map fun line => line ++ ['\n']).flatten := by
  induction l with
  | nil => rfl
  | cons a l ih =>
    simp only [List.map_cons, List.flatten_cons, ih]
    rfl

/-- C6: for a declaration of `n ≥ 1` links and a staging path `p`,
`addImagePost` sets the arguments of the step to the shell arguments of a
script that is `n + 2` lines, each ended by a newline and with none inside:
`set -ex`, then `cd` to the quoted `p`, then for each entry that `range` yields
the line `ln -s <quoted source> <quoted filepath.Join(p, entry.Path)>`; the
entries yielded are those of the map, each once. -/
theorem add_image_post_script_lines (deps : Deps) (tbl : Nat → Bool) (it : MapIter)
    (post : PostInstall) (p : Str) (ei : ExecInfo) (hn : 1 ≤ post.symlinks.length) :
    ∃ lines : List Str,
      lines = "set -ex".toList :: ("cd ".toList ++ Strconv.quote tbl p) ::
        (it.order post.symlinks).map (fun e =>
          "ln -s ".toList ++ Strconv.quote tbl e.1 ++ " ".toList ++
            Strconv.quote tbl (Filepath.join [p, e.2.path])) ∧
      (addImagePost deps tbl it (some post) p ei).args =
        deps.shArgs (addImagePostScript tbl it post p) ∧
      addImagePostScript tbl it post p = (lines.map fun line => line ++ ['\n']).flatten ∧
      lines.length = post.symlinks.length + 2 ∧
      (∀ line ∈ lines, '\n' ∉ line) ∧
      (it.order post.symlinks).Perm post.symlinks := by
  refine ⟨_, rfl, ?_, ?_, ?_, ?_, it.perm post.symlinks⟩
  · have h0 : ¬ post.symlinks.length = 0 := by omega
    simp only [addImagePost, if_neg h0, withConstraints, setArgs]
  · simp only [addImagePostScript, List.map_cons, List.flatten_cons]
    rw [← flatten_line_map]
    simp [List.append_assoc]
  · simp only [List.length_cons, List.length_map, (it.perm post.symlinks).length_eq]
  · intro line hline
    rcases List.mem_cons.mp hline with h | hline
    · subst h; decide
    rcases List.mem_cons.mp hline with h | hline
    · subst h
      exact newline_not_mem_append (by decide) (newline_not_mem_quote tbl p)
    · obtain ⟨e, _, he⟩ := List.mem_map.mp hline
      subst he
      exact newline_not_mem_append
        (newline_not_mem_append
          (newline_not_mem_append (by decide) (newline_not_mem_quote tbl _)) (by decide))
        (newline_not_mem_quote tbl _)

/-- The script for two links under `/tmp/rootfs` is four lines. -/
theorem add_image_post_script_lines_witness :
    1 ≤ twoLinks.symlinks.length ∧
    ∃ lines : List Str,
      lines = "set -ex".toList :: ("cd ".toList ++ Strconv.quote noTable workPath) ::
        (MapIter.stored.order twoLinks.symlinks).map (fun e =>
          "ln -s ".toList ++ Strconv.quote noTable e.1 ++ " ".toList ++
            Strconv.quote noTable (Filepath.join [workPath, e.2.path])) ∧
      (addImagePost demoDeps noTable MapIter.stored (some twoLinks) workPath ⟨[], [], []⟩).args =
        demoDeps.shArgs (addImagePostScript noTable MapIter.stored twoLinks workPath) ∧
      addImagePostScript noTable MapIter.stored twoLinks workPath =
        (lines.map fun line => line ++ ['\n']).flatten ∧
      lines.length = twoLinks.symlinks.length + 2 ∧
      (∀ line ∈ lines, '\n' ∉ line) ∧
      (MapIter.stored.order twoLinks.symlinks).Perm twoLinks.symlinks :=
  ⟨by decide,
   add_image_post_script_lines demoDeps noTable MapIter.stored twoLinks workPath ⟨[], [], []⟩
     (by decide)⟩

/-! ## The operation graph of the container -/

theorem progressGroupOf_snoc (cs : List ConstraintsOpt) (n : Str) :
    progressGroupOf (cs ++ [.progressGroup n]) = some n := by
  simp only [progressGroupOf, List.foldl_append, List.foldl_cons, List.foldl_nil]

theorem installStep_eq (deps : Deps) (spec : Spec) (target : Str) (builderImg rpmDir : State)
    (opts : List ConstraintsOpt) :
    installStep deps spec target builderImg rpmDir opts =
      .mk builderImg (deps.shArgs "/tmp/install.sh".toList)
        (.cons deps.defaultTdnfCacheMount.target deps.defaultTdnfCacheMount.source
            deps.defaultTdnfCacheMount.opts
          (.cons "/tmp/rpms".toList rpmDir ["SourcePath(/RPMS)".toList]
            (.cons "/tmp/install.sh".toList
                (.mkfile .scratch "install.sh".toList 0o755 installCmd
                  (opts ++ [.progressGroup "Install RPMs".toList]))
                ["SourcePath(install.sh)".toList]
              (.cons (deps.tdnfCacheMountWithPrefix workPath).target
                  (deps.tdnfCacheMountWithPrefix workPath).source
                  (deps.tdnfCacheMountWithPrefix workPath).opts
                (.cons workPath
                    (.image (deps.getBaseOutputImage spec target marinerDistrolessRef)
                      (opts ++ [.progressGroup "Install RPMs".toList]))
                    [] .nil)))))
        (opts ++ [.progressGroup "Install RPMs".toList]) := rfl

theorem installStep_not_symlink (deps : Deps) (spec : Spec) (target : Str)
    (builderImg rpmDir : State) (opts : List ConstraintsOpt) :
    (installStep deps spec target builderImg rpmDir opts).isSymlinkStep = false := by
  rw [installStep_eq]
  simp only [Exec.isSymlinkStep, Exec.constraints, progressGroupOf_snoc]
  decide

theorem installStep_execs (deps : Deps) (spec : Spec) (target : Str)
    (builderImg rpmDir : State) (opts : List ConstraintsOpt) :
    (installStep deps spec target builderImg rpmDir opts).execs =
      installStep deps spec target builderImg rpmDir opts ::
        (builderImg.execs ++ (deps.defaultTdnfCacheMount.source.execs ++
          (rpmDir.execs ++ (deps.tdnfCacheMountWithPrefix workPath).source.execs))) := by
  rw [installStep_eq]
  simp [Exec.execs, Mounts.execs, State.execs]

theorem installStep_filter_symlink (deps : Deps) (spec : Spec) (target : Str)
    (builderImg rpmDir : State) (opts : List ConstraintsOpt)
    (hin : ∀ e ∈ builderImg.execs ++ rpmDir.execs ++ deps.defaultTdnfCacheMount.source.execs ++
        (deps.tdnfCacheMountWithPrefix workPath).source.execs, e.isSymlinkStep = false) :
    (installStep deps spec target builderImg rpmDir opts).execs.filter Exec.isSymlinkStep = [] := by
  rw [List.filter_eq_nil_iff]
  intro e he
  rw [installStep_execs] at he
  rcases List.mem_cons.mp he with h | h
  · rw [h, installStep_not_symlink]
    exact Bool.noConfusion
  · rw [hin e (by
      simp only [List.mem_append] at h ⊢
      tauto)]
    exact Bool.noConfusion

theorem execs_output (e : Exec) (t : Str) : (State.output e t).execs = e.execs := by
  simp only [State.execs]

theorem execs_mk (root : State) (args : List Str) (mounts : Mounts) (cs : List ConstraintsOpt) :
    (Exec.mk root args mounts cs).execs =
      Exec.mk root args mounts cs :: (root.execs ++ mounts.execs) := by
  simp only [Exec.execs]

theorem execs_cons (t : Str) (source : State) (o : List Str) (rest : Mounts) :
    (Mounts.cons t source o rest).execs = source.execs ++ rest.execs := by
  simp only [Mounts.execs]

theorem execs_nil : Mounts.nil.execs = [] := by
  simp only [Mounts.execs]

theorem symlinkStep_eq (deps : Deps) (tbl : Nat → Bool) (it : MapIter) (post : PostInstall)
    (worker : Exec) (opts : List ConstraintsOpt) (h : ¬ post.symlinks.length = 0) :
    (worker.rootState.run [withConstraints opts,
        addImagePost deps tbl it (some post) workPath]).addMount workPath
        (.output worker workPath) =
      .mk worker.rootState (deps.shArgs (addImagePostScript tbl it post workPath))
        (.cons workPath (.output worker workPath) [] .nil)
        (opts ++ [.progressGroup "Add post-install symlinks".toList]) := by
  simp only [State.run, List.foldl_cons, List.foldl_nil, addImagePost, if_neg h, withConstraints,
    setArgs, List.nil_append, Mounts.ofList, Exec.addMount, Mounts.snoc]

theorem specToContainerLLB_none (deps : Deps) (tbl : Nat → Bool) (it : MapIter) (spec : Spec)
    (target : Str) (builderImg rpmDir : State) (opts : List ConstraintsOpt)
    (h : ∀ post, getImagePostInstall spec target = some post → post.symlinks = []) :
    specToContainerLLB deps tbl it spec target builderImg rpmDir opts =
      .ok (.output (installStep deps spec target builderImg rpmDir opts) workPath) := by
  unfold specToContainerLLB
  cases hp : getImagePostInstall spec target with
  | none => rfl
  | some post =>
    have h0 : ¬ post.symlinks.length > 0 := by
      rw [h post hp]
      exact Nat.lt_irrefl 0
    simp only [if_neg h0]

theorem specToContainerLLB_some (deps : Deps) (tbl : Nat → Bool) (it : MapIter) (spec : Spec)
    (target : Str) (builderImg rpmDir : State) (opts : List ConstraintsOpt) (post : PostInstall)
    (hp : getImagePostInstall spec target = some post) (hs : post.symlinks ≠ []) :
    specToContainerLLB deps tbl it spec target builderImg rpmDir opts =
      .ok (.output
        (.mk (installStep deps spec target builderImg rpmDir opts).rootState
          (deps.shArgs (addImagePostScript tbl it post workPath))
          (.cons workPath (.output (installStep deps spec target builderImg rpmDir opts) workPath)
            [] .nil)
          ((opts ++ [.progressGroup "Install RPMs".toList]) ++
            [.progressGroup "Add post-install symlinks".toList]))
        workPath) := by
  have h0 : post.symlinks.length > 0 := List.length_pos.mpr hs
  have h1 : ¬ post.symlinks.length = 0 := Nat.pos_iff_ne_zero.mp h0
  unfold specToContainerLLB
  simp only [hp, if_pos h0, symlinkStep_eq deps tbl it post _ _ h1]

/-- C5: `specToContainerLLB` never returns an error.  When the post-install
block resolved for the target is absent or declares no symlink, the state
returned is the output of the install step at the staging path, where the base
image is its last mount, and (the states passed in holding no symlink step)
its graph has no symlink step.  When the block declares a symlink, the state
returned is the output at the staging path of one further step, the only
symlink step of the graph: it runs on the root output of the install step, has
the install step's staging-path output mounted at the staging path, and its
arguments are the symlink script.  So the graph has a symlink step exactly when
the resolved block is present and declares a symlink. -/
theorem container_llb_symlink_step (deps : Deps) (tbl : Nat → Bool) (it : MapIter) (spec : Spec)
    (target : Str) (builderImg rpmDir : State) (opts : List ConstraintsOpt)
    (hin : ∀ e ∈ builderImg.execs ++ rpmDir.execs ++ deps.defaultTdnfCacheMount.source.execs ++
        (deps.tdnfCacheMountWithPrefix workPath).source.execs, e.isSymlinkStep = false) :
    ∃ st : State,
      specToContainerLLB deps tbl it spec target builderImg rpmDir opts = .ok st ∧
      ((∃ e ∈ st.execs, e.isSymlinkStep = true) ↔
        ∃ post, getImagePostInstall spec target = some post ∧ post.symlinks ≠ []) ∧
      ((installStep deps spec target builderImg rpmDir opts).mounts.toList.getLast? =
        some ⟨workPath, .image (deps.getBaseOutputImage spec target marinerDistrolessRef)
          (opts ++ [.progressGroup "Install RPMs".toList]), []⟩) ∧
      ((∀ post, getImagePostInstall spec target = some post → post.symlinks = []) →
        st = .output (installStep deps spec target builderImg rpmDir opts) workPath ∧
        st.execs.filter Exec.isSymlinkStep = []) ∧
      (∀ post, getImagePostInstall spec target = some post → post.symlinks ≠ [] →
        ∃ e : Exec, st = .output e workPath ∧
          st.execs.filter Exec.isSymlinkStep = [e] ∧
          e.root = (installStep deps spec target builderImg rpmDir opts).rootState ∧
          e.mounts = .cons workPath
            (.output (installStep deps spec target builderImg rpmDir opts) workPath) [] .nil ∧
          e.args = deps.shArgs (addImagePostScript tbl it post workPath)) := by
  have hfil := installStep_filter_symlink deps spec target builderImg rpmDir opts hin
  have hlast : (installStep deps spec target builderImg rpmDir opts).mounts.toList.getLast? =
      some ⟨workPath, .image (deps.getBaseOutputImage spec target marinerDistrolessRef)
        (opts ++ [.progressGroup "Install RPMs".toList]), []⟩ := by
    rw [installStep_eq]
    rfl
  by_cases hc : ∃ post, getImagePostInstall spec target = some post ∧ post.symlinks ≠ []
  · obtain ⟨post, hp, hs⟩ := hc
    have hst := specToContainerLLB_some deps tbl it spec target builderImg rpmDir opts post hp hs
    have hexecs : (State.output
        (.mk (installStep deps spec target builderImg rpmDir opts).rootState
          (deps.shArgs (addImagePostScript tbl it post workPath))
          (.cons workPath (.output (installStep deps spec target builderImg rpmDir opts) workPath)
            [] .nil)
          ((opts ++ [.progressGroup "Install RPMs".toList]) ++
            [.progressGroup "Add post-install symlinks".toList]))
        workPath).execs.filter Exec.isSymlinkStep =
        [.mk (installStep deps spec target builderImg rpmDir opts).rootState
          (deps.shArgs (addImagePostScript tbl it post workPath))
          (.cons workPath (.output (installStep deps spec target builderImg rpmDir opts) workPath)
            [] .nil)
          ((opts ++ [.progressGroup "Install RPMs".toList]) ++
            [.progressGroup "Add post-install symlinks".toList])] := by
      have hsym : Exec.isSymlinkStep
          (.mk (installStep deps spec target builderImg rpmDir opts).rootState
            (deps.shArgs (addImagePostScript tbl it post workPath))
            (.cons workPath
              (.output (installStep deps spec target builderImg rpmDir opts) workPath) [] .nil)
            ((opts ++ [.progressGroup "Install RPMs".toList]) ++
              [.progressGroup "Add post-install symlinks".toList])) = true := by
        simp only [Exec.isSymlinkStep, Exec.constraints, progressGroupOf_snoc]
        decide
      simp only [Exec.rootState] at hsym ⊢
      simp only [execs_output, execs_mk, execs_cons, execs_nil, List.append_nil,
        List.filter_cons, hsym, if_true, List.filter_append, hfil, List.append_nil]
    refine ⟨_, hst, ?_, hlast, ?_, ?_⟩
    · refine ⟨fun _ => ⟨post, hp, hs⟩, fun _ => ?_⟩
      refine ⟨_, ?_, (List.mem_filter.mp (hexecs ▸ List.mem_singleton_self _)).2⟩
      exact (List.mem_filter.mp (hexecs ▸ List.mem_singleton_self _)).1
    · intro h
      exact absurd (h post hp) hs
    · intro post2 hp2 _
      have hpp : post2 = post := Option.some.inj (hp2.symm.trans hp)
      subst hpp
      exact ⟨_, rfl, hexecs, rfl, rfl, rfl⟩
  · have hnone : ∀ post, getImagePostInstall spec target = some post → post.symlinks = [] := by
      intro post hp
      by_contra hs
      exact hc ⟨post, hp, hs⟩
    have hst := specToContainerLLB_none deps tbl it spec target builderImg rpmDir opts hnone
    have hexecs : (State.output (installStep deps spec target builderImg rpmDir opts)
        workPath).execs.filter Exec.isSymlinkStep = [] := by
      simp only [execs_output, hfil]
    refine ⟨_, hst, ?_, hlast, fun _ => ⟨rfl, hexecs⟩, ?_⟩
    · refine ⟨?_, fun h => absurd h hc⟩
      rintro ⟨e, he, hsym⟩
      have : e ∈ (State.output (installStep deps spec target builderImg rpmDir opts)
          workPath).execs.filter Exec.isSymlinkStep := List.mem_filter.mpr ⟨he, hsym⟩
      rw [hexecs] at this
      exact absurd this (List.not_mem_nil e)
    · intro post hp hs
      exact absurd ⟨post, hp, hs⟩ hc

/-- The graph for the spec with two spec-level links, built on a worker image
and an empty package directory, which hold no exec at all. -/
theorem container_llb_symlink_step_witness :
    (∀ e ∈ demoWorker.execs ++ State.scratch.execs ++
        demoDeps.defaultTdnfCacheMount.source.execs ++
        (demoDeps.tdnfCacheMountWithPrefix workPath).source.execs, e.isSymlinkStep = false) ∧
    ∃ st : State,
      specToContainerLLB demoDeps noTable MapIter.stored twoLinkSpec [] demoWorker .scratch []
        = .ok st ∧
      ((∃ e ∈ st.execs, e.isSymlinkStep = true) ↔
        ∃ post, getImagePostInstall twoLinkSpec [] = some post ∧ post.symlinks ≠ []) ∧
      ((installStep demoDeps twoLinkSpec [] demoWorker .scratch []).mounts.toList.getLast? =
        some ⟨workPath, .image (demoDeps.getBaseOutputImage twoLinkSpec [] marinerDistrolessRef)
          ([] ++ [.progressGroup "Install RPMs".toList]), []⟩) ∧
      ((∀ post, getImagePostInstall twoLinkSpec [] = some post → post.symlinks = []) →
        st = .output (installStep demoDeps twoLinkSpec [] demoWorker .scratch []) workPath ∧
        st.execs.filter Exec.isSymlinkStep = []) ∧
      (∀ post, getImagePostInstall twoLinkSpec [] = some post → post.symlinks ≠ [] →
        ∃ e : Exec, st = .output e workPath ∧
          st.execs.filter Exec.isSymlinkStep = [e] ∧
          e.root = (installStep demoDeps twoLinkSpec [] demoWorker .scratch []).rootState ∧
          e.mounts = .cons workPath
            (.output (installStep demoDeps twoLinkSpec [] demoWorker .scratch []) workPath)
            [] .nil ∧
          e.args = demoDeps.shArgs (addImagePostScript noTable MapIter.stored post workPath)) :=
  ⟨fun e he => absurd he (List.not_mem_nil e),
   container_llb_symlink_step demoDeps noTable MapIter.stored twoLinkSpec [] demoWorker .scratch []
     (fun e he => absurd he (List.not_mem_nil e))⟩

/-! ## The symlink words and the shell -/

/-- C7, at the source `$(id)`: the script has the line
`ln -s "$(id)" "/tmp/rootfs/l"`, the source word being the source between
double quotes as `%q` prints it, and a POSIX shell reading that word meets a
command substitution: the word is not a literal. -/
theorem symlink_source_word_expands :
    addImagePostScript noTable MapIter.stored substLink workPath =
      "set -ex\ncd \"/tmp/rootfs\"\nln -s \"$(id)\" \"/tmp/rootfs/l\"\n".toList ∧
    Strconv.quote noTable "$(id)".toList = "\"$(id)\"".toList ∧
    readWord (Strconv.quote noTable "$(id)".toList) = .expansion := by
  refine ⟨by decide, by decide, by decide⟩

/-! ## Iteration order -/

/-- C10, at a declaration of two links: the two orders in which `range` may
yield the two entries give two different script texts, and two different
graphs from the same spec, target and staging path. -/
theorem symlink_script_follows_iteration_order :
    (MapIter.stored.order twoLinks.symlinks).Perm (MapIter.reversed.order twoLinks.symlinks) ∧
    addImagePostScript noTable MapIter.stored twoLinks workPath =
      ("set -ex\ncd \"/tmp/rootfs\"\n" ++
       "ln -s \"/usr/bin/a\" \"/tmp/rootfs/bin/a\"\n" ++
       "ln -s \"/usr/bin/b\" \"/tmp/rootfs/bin/b\"\n").toList ∧
    addImagePostScript noTable MapIter.reversed twoLinks workPath =
      ("set -ex\ncd \"/tmp/rootfs\"\n" ++
       "ln -s \"/usr/bin/b\" \"/tmp/rootfs/bin/b\"\n" ++
       "ln -s \"/usr/bin/a\" \"/tmp/rootfs/bin/a\"\n").toList ∧
    specToContainerLLB demoDeps noTable MapIter.stored twoLinkSpec [] demoWorker .scratch [] ≠
      specToContainerLLB demoDeps noTable MapIter.reversed twoLinkSpec [] demoWorker .scratch []
    := by
  refine ⟨by decide, by decide, by decide, ?_⟩
  intro h
  have hargs := congrArg (fun r : Except GoError State =>
    match r with
    | .ok (.output e _) => e.args
    | _ => []) h
  revert hargs
  decide

/-! ## The install script -/

theorem envOf_eta (env : ShEnv) :
    env = envOf env.rpmsNonEmpty (env.succeeds .install) (env.succeeds .probe)
      (env.succeeds .mkManifestDir) (env.succeeds .writeManifest1)
      (env.succeeds .writeManifest2) (env.succeeds .removeRpmdb) := by
  cases env with
  | mk rpms succeeds =>
    simp only [envOf, ShEnv.mk.injEq, true_and]
    funext step
    cases step <;> rfl

set_option maxRecDepth 100000 in
theorem installCmd_statements :
    installCmd = installPreamble ++ (installProgram.map Sh.render).flatten := by
  rfl

theorem installProgram_runs (rpms install probe mk w1 w2 rm : Bool) :
    ((runSh (envOf rpms install probe mk w1 w2 rm) installProgram).trace.map Prod.fst).Sublist
      [.install, .probe, .mkManifestDir, .writeManifest1, .writeManifest2, .removeRpmdb] ∧
    (runSh (envOf rpms install probe mk w1 w2 rm) installProgram).ran .install = rpms ∧
    (rpms = true → install = false →
      (runSh (envOf rpms install probe mk w1 w2 rm) installProgram).trace = [(.install, false)] ∧
      (runSh (envOf rpms install probe mk w1 w2 rm) installProgram).success = false) ∧
    ((runSh (envOf rpms install probe mk w1 w2 rm) installProgram).ran .probe = true →
      probe = true →
      (runSh (envOf rpms install probe mk w1 w2 rm) installProgram).success = true ∧
      (runSh (envOf rpms install probe mk w1 w2 rm) installProgram).ran .mkManifestDir = false ∧
      (runSh (envOf rpms install probe mk w1 w2 rm) installProgram).ran .writeManifest1 = false ∧
      (runSh (envOf rpms install probe mk w1 w2 rm) installProgram).ran .writeManifest2 = false ∧
      (runSh (envOf rpms install probe mk w1 w2 rm) installProgram).ran .removeRpmdb = false) ∧
    ((runSh (envOf rpms install probe mk w1 w2 rm) installProgram).success = true →
      (runSh (envOf rpms install probe mk w1 w2 rm) installProgram).done .writeManifest1 =
        (runSh (envOf rpms install probe mk w1 w2 rm) installProgram).done .writeManifest2 ∧
      (runSh (envOf rpms install probe mk w1 w2 rm) installProgram).done .writeManifest1 =
        !probe ∧
      (runSh (envOf rpms install probe mk w1 w2 rm) installProgram).done .removeRpmdb =
        !probe) ∧
    ((runSh (envOf rpms install probe mk w1 w2 rm) installProgram).ran .removeRpmdb = true →
      (runSh (envOf rpms install probe mk w1 w2 rm) installProgram).done .writeManifest1 = true ∧
      (runSh (envOf rpms install probe mk w1 w2 rm) installProgram).done .writeManifest2 = true) := by
  cases rpms <;> cases install <;> cases probe <;> cases mk <;> cases w1 <;> cases w2 <;>
    cases rm <;> decide

set_option maxRecDepth 100000 in
theorem installProgram_statements :
    (installProgram.filter fun s => match s with
      | .text _ => false
      | _ => true) =
    [.ifRpms (.orExit .install
        ("tdnf -v install --releasever=2.0 -y --nogpgcheck --installroot \"/tmp/rootfs\"" ++
         " --setopt=reposdir=/etc/yum.repos.d $\x7brpms\x7d").toList),
     .andExit0 .probe
        ("PATH=\"/tmp/rootfs/usr/local/bin:/tmp/rootfs/usr/local/sbin:/tmp/rootfs/usr/bin:" ++
         "/tmp/rootfs/usr/sbin:/tmp/rootfs/bin:/tmp/rootfs/sbin\" command -v rpm").toList,
     .setE,
     .cmd .mkManifestDir "mkdir -p /tmp/rootfs/var/lib/rpmmanifest".toList,
     .cmd .writeManifest1
        ("rpm --dbpath=/tmp/rootfs/var/lib/rpm -qa > " ++
         "/tmp/rootfs/var/lib/rpmmanifest/container-manifest-1").toList,
     .cmd .writeManifest2
        ("rpm --dbpath=/tmp/rootfs/var/lib/rpm -qa --qf \"".toList ++ mfst2Format ++
         "\" > /tmp/rootfs/var/lib/rpmmanifest/container-manifest-2".toList),
     .cmd .removeRpmdb "rm -rf /tmp/rootfs/var/lib/rpm".toList] := by
  decide

/-- C8, as amended: after its preamble the install script is, in this order,
the package install (inside the test that `rpms` is not empty, and followed by
`|| exit`), the probe for `rpm` on the chrooted path followed by `&& exit 0`,
`set -e`, the creation of `/tmp/rootfs/var/lib/rpmmanifest`, the write of
`container-manifest-1`, the write of `container-manifest-2`, and the removal
of `/tmp/rootfs/var/lib/rpm`.  In every run the commands run in that order,
the install exactly when install arguments were collected; a failed install
ends the run there with a failure; when the probe finds `rpm` the run ends with
status 0 and no manifest, directory or removal command runs; the removal runs
only after both manifest writes have succeeded; and in every run that ends with
status 0 both manifests are written or neither, both (and the removal done)
exactly when the probe did not find `rpm`. -/
theorem install_script_manifests :
    installCmd = installPreamble ++ (installProgram.map Sh.render).flatten ∧
    (installProgram.filter fun s => match s with
      | .text _ => false
      | _ => true) =
    [.ifRpms (.orExit .install
        ("tdnf -v install --releasever=2.0 -y --nogpgcheck --installroot \"/tmp/rootfs\"" ++
         " --setopt=reposdir=/etc/yum.repos.d $\x7brpms\x7d").toList),
     .andExit0 .probe
        ("PATH=\"/tmp/rootfs/usr/local/bin:/tmp/rootfs/usr/local/sbin:/tmp/rootfs/usr/bin:" ++
         "/tmp/rootfs/usr/sbin:/tmp/rootfs/bin:/tmp/rootfs/sbin\" command -v rpm").toList,
     .setE,
     .cmd .mkManifestDir "mkdir -p /tmp/rootfs/var/lib/rpmmanifest".toList,
     .cmd .writeManifest1
        ("rpm --dbpath=/tmp/rootfs/var/lib/rpm -qa > " ++
         "/tmp/rootfs/var/lib/rpmmanifest/container-manifest-1").toList,
     .cmd .writeManifest2
        ("rpm --dbpath=/tmp/rootfs/var/lib/rpm -qa --qf \"".toList ++ mfst2Format ++
         "\" > /tmp/rootfs/var/lib/rpmmanifest/container-manifest-2".toList),
     .cmd .removeRpmdb "rm -rf /tmp/rootfs/var/lib/rpm".toList] ∧
    ∀ env : ShEnv,
      ((runSh env installProgram).trace.map Prod.fst).Sublist
        [.install, .probe, .mkManifestDir, .writeManifest1, .writeManifest2, .removeRpmdb] ∧
      (runSh env installProgram).ran .install = env.rpmsNonEmpty ∧
      (env.rpmsNonEmpty = true → env.succeeds .install = false →
        (runSh env installProgram).trace = [(.install, false)] ∧
        (runSh env installProgram).success = false) ∧
      ((runSh env installProgram).ran .probe = true → env.succeeds .probe = true →
        (runSh env installProgram).success = true ∧
        (runSh env installProgram).ran .mkManifestDir = false ∧
        (runSh env installProgram).ran .writeManifest1 = false ∧
        (runSh env installProgram).ran .writeManifest2 = false ∧
        (runSh env installProgram).ran .removeRpmdb = false) ∧
      ((runSh env installProgram).success = true →
        (runSh env installProgram).done .writeManifest1 =
          (runSh env installProgram).done .writeManifest2 ∧
        (runSh env installProgram).done .writeManifest1 = !env.succeeds .probe ∧
        (runSh env installProgram).done .removeRpmdb = !env.succeeds .probe) ∧
      ((runSh env installProgram).ran .removeRpmdb = true →
        (runSh env installProgram).done .writeManifest1 = true ∧
        (runSh env installProgram).done .writeManifest2 = true) := by
  refine ⟨installCmd_statements, installProgram_statements, fun env => ?_⟩
  have h := installProgram_runs env.rpmsNonEmpty (env.succeeds .install) (env.succeeds .probe)
    (env.succeeds .mkManifestDir) (env.succeeds .writeManifest1)
    (env.succeeds .writeManifest2) (env.succeeds .removeRpmdb)
  rw [← envOf_eta env] at h
  exact h

/-- Two runs in which the probe does not find `rpm`.  In the first the
creation of the manifest directory fails: the run ends there, and neither
manifest write runs.  In the second the write of manifest-2 fails: manifest-1
has been written, manifest-2 has not, and the run ends before the removal. -/
theorem install_script_manifests_counterexample :
    (envOf true true false false true true true).succeeds .probe = false ∧
    (runSh (envOf true true false false true true true) installProgram).trace =
      [(.install, true), (.probe, false), (.mkManifestDir, false)] ∧
    (runSh (envOf true true false false true true true) installProgram).ran .writeManifest1
      = false ∧
    (runSh (envOf true true false false true true true) installProgram).ran .writeManifest2
      = false ∧
    (envOf true true false true true false true).succeeds .probe = false ∧
    (runSh (envOf true true false true true false true) installProgram).trace =
      [(.install, true), (.probe, false), (.mkManifestDir, true), (.writeManifest1, true),
       (.writeManifest2, false)] ∧
    (runSh (envOf true true false true true false true) installProgram).done .writeManifest1
      = true ∧
    (runSh (envOf true true false true true false true) installProgram).done .writeManifest2
      = false := by
  decide

/-! ## The manifest-2 line -/

set_option maxRecDepth 100000 in
/-- C9, as amended: the query format of the manifest-2 line describes ten
fields per package, separated by nine tabs and ended by a newline, in the order
name, version-release, install time, build time, vendor, the literal
placeholder `(none)`, size, architecture, epoch-or-default, source-package
name; it is the format the manifest-2 command of the script passes to
`rpm --qf`. -/
theorem manifest2_format_fields :
    mfst2Fields =
      ["%\x7bNAME\x7d".toList, "%\x7bVERSION\x7d-%\x7bRELEASE\x7d".toList,
       "%\x7bINSTALLTIME\x7d".toList, "%\x7bBUILDTIME\x7d".toList, "%\x7bVENDOR\x7d".toList,
       "(none)".toList, "%\x7bSIZE\x7d".toList, "%\x7bARCH\x7d".toList,
       "%\x7bEPOCHNUM\x7d".toList, "%\x7bSOURCERPM\x7d".toList] ∧
    mfst2Fields.length = 10 ∧
    rpmUnescape mfst2Format = List.intercalate ['\t'] mfst2Fields ++ ['\n'] ∧
    ((rpmUnescape mfst2Format).filter fun c => c = '\t').length = 9 ∧
    Sh.cmd .writeManifest2
      ("rpm --dbpath=/tmp/rootfs/var/lib/rpm -qa --qf \"".toList ++ mfst2Format ++
       "\" > /tmp/rootfs/var/lib/rpmmanifest/container-manifest-2".toList) ∈ installProgram := by
  refine ⟨by decide, by decide, by decide, by decide, by decide⟩

/-- The manifest-2 line has ten tab-separated fields, not nine. -/
theorem manifest2_format_fields_counterexample :
    mfst2Fields.length = 10 ∧ ¬ mfst2Fields.length = 9 := by
  decide

end Dalec
